import Mathlib

/-!
Verification of the password-generation and strength-evaluation core of
`password-generator/Password_Generator.py`.

The Python module defines two stateless functions:
* `generate_password(length, use_uppercase, use_numbers, use_symbols)`
* `evaluate_password_strength(password)`

This file gives a shallow embedding of both.  Randomness
(`secrets.choice`, `secrets.SystemRandom().shuffle`) is modelled by an
abstract source: an indexed choice function that must return an element
of the list it draws from, and a shuffle that must return a permutation
of its input.  Every concrete execution of the Python code corresponds
to one such source.  Python `float` arithmetic for the entropy value
(`math.log2`) is modelled by exact real `Real.logb 2`; the integer
entropy thresholds are implemented by the exact power comparisons
`2 ^ t ≤ size ^ len`, which agree with the real-number comparisons
(bridging lemmas below prove this agreement).
-/

namespace PasswordGenerator

/-- Python `string.ascii_lowercase`: the 26 characters with codes 97..122. -/
def ascii_lowercase : List Char := (List.range 26).map (fun i => Char.ofNat (97 + i))

/-- Python `string.ascii_uppercase`: the 26 characters with codes 65..90. -/
def ascii_uppercase : List Char := (List.range 26).map (fun i => Char.ofNat (65 + i))

/-- Python `string.digits`: the 10 characters with codes 48..57. -/
def digits : List Char := (List.range 10).map (fun i => Char.ofNat (48 + i))

/-- Python `string.punctuation`: exactly the printable ASCII characters
(codes 33..126) that are not alphanumeric — 32 characters. -/
def punctuation : List Char :=
  ((List.range 94).map (fun i => Char.ofNat (33 + i))).filter (fun c => !c.isAlphanum)

/-- Module constant `MIN_LENGTH = 8` (module-level constant). -/
def MIN_LENGTH : Nat := 8

/-! ## Strength evaluator (`evaluate_password_strength`, lines 70-180) -/

/-- One feedback note.  The Python code appends literal strings; the
three entropy notes embed the entropy value formatted to one decimal
place, which is a function of the password length and the active
alphabet size both recorded in the report, so the constructors carry no
payload. -/
inductive Feedback where
  | excellentLength
  | veryGoodLength
  | goodLength
  | moderateLength
  | minimumAcceptableLength
  | passwordTooShort
  | missingLowercase
  | missingUppercase
  | missingNumbers
  | missingSpecial
  | veryHighEntropy
  | highEntropy
  | goodEntropy
  | moderateEntropy
  | lowEntropy
deriving DecidableEq, Repr

/-- Python `any(c in string.ascii_lowercase for c in password)`. -/
def hasLower (p : List Char) : Bool := p.any (fun c => ascii_lowercase.contains c)

/-- Python `any(c in string.ascii_uppercase for c in password)`. -/
def hasUpper (p : List Char) : Bool := p.any (fun c => ascii_uppercase.contains c)

/-- Python `any(c in string.digits for c in password)`. -/
def hasDigit (p : List Char) : Bool := p.any (fun c => digits.contains c)

/-- Python `any(c in string.punctuation for c in password)`. -/
def hasSymbol (p : List Char) : Bool := p.any (fun c => punctuation.contains c)

/-- A character belonging to at least one of the four class alphabets.
Characters with `classified c = false` (spaces, control characters,
non-ASCII) are scanned by the four presence checks of lines 99-128 but
match none of them, while still counting toward `len(password)`. -/
def classified (c : Char) : Bool :=
  ascii_lowercase.contains c || ascii_uppercase.contains c ||
    digits.contains c || punctuation.contains c

/-- Length-based score and feedback (lines 79-96): the first matching
tier of `≥20, ≥16, ≥12, ≥10, ≥8` applies, else the too-short note. -/
def lengthScoreFeedback (n : Nat) : Nat × List Feedback :=
  if 20 ≤ n then (5, [Feedback.excellentLength])
  else if 16 ≤ n then (4, [Feedback.veryGoodLength])
  else if 12 ≤ n then (3, [Feedback.goodLength])
  else if 10 ≤ n then (2, [Feedback.moderateLength])
  else if 8 ≤ n then (1, [Feedback.minimumAcceptableLength])
  else (0, [Feedback.passwordTooShort])

/-- Character-set diversity score and feedback (lines 98-117): four
independent checks, evaluated lowercase, uppercase, digits, symbols;
each adds one point when present, one "Missing ..." note otherwise.
The arguments are the four class-presence scans of the password. -/
def diversityScoreFeedback (bl bu bd bs : Bool) : Nat × List Feedback :=
  ((if bl then 1 else 0) + (if bu then 1 else 0) +
     (if bd then 1 else 0) + (if bs then 1 else 0),
   (if bl then [] else [Feedback.missingLowercase]) ++
     (if bu then [] else [Feedback.missingUppercase]) ++
     (if bd then [] else [Feedback.missingNumbers]) ++
     (if bs then [] else [Feedback.missingSpecial]))

/-- Computation of `char_set_size` (lines 120-128): sum of the sizes of the
classes observed in the password (arguments are the four class-presence
scans); the symbol contribution is `len(string.punctuation)`. -/
def char_set_size (bl bu bd bs : Bool) : Nat :=
  (if bl then 26 else 0) + (if bu then 26 else 0) +
    (if bd then 10 else 0) + (if bs then punctuation.length else 0)

/-- The real-number value of
`entropy = len(password) * math.log2(char_set_size) if char_set_size > 0 else 0`
(line 130).  Python computes this in `float`; the embedding uses the
exact real logarithm. -/
noncomputable def entropyBits (len size : Nat) : ℝ :=
  if 0 < size then (len : ℝ) * Real.logb 2 size else 0

/-- Decidable form of the comparison `entropy >= t` for a natural
threshold `t`: over the exact reals, `len * log2 size ≥ t ↔ 2^t ≤ size^len`
(proved below as `entropyAtLeast_iff`). -/
def entropyAtLeast (len size t : Nat) : Bool :=
  decide (2 ^ t ≤ size ^ len)

/-- Decidable form of `entropy > 0`: the exact value
`len * log2 size` is positive iff `len ≥ 1` and `size ≥ 2`
(proved below as `entropyPos_iff`). -/
def entropyPos (len size : Nat) : Bool :=
  decide (1 ≤ len ∧ 2 ≤ size)

/-- Entropy-based score and feedback (lines 132-147): first matching
tier of `≥100, ≥80, ≥60, ≥40, >0`; no points and no note otherwise. -/
def entropyScoreFeedback (len size : Nat) : Nat × List Feedback :=
  if entropyAtLeast len size 100 then (5, [Feedback.veryHighEntropy])
  else if entropyAtLeast len size 80 then (4, [Feedback.highEntropy])
  else if entropyAtLeast len size 60 then (3, [Feedback.goodEntropy])
  else if entropyAtLeast len size 40 then (2, [Feedback.moderateEntropy])
  else if entropyPos len size then (1, [Feedback.lowEntropy])
  else (0, [])

/-- The dictionary returned by `evaluate_password_strength`
(lines 171-180).  The Python `entropy` float entry is determined by
`passwordLength` and `charSetSize`, recorded here exactly; the real
value is recovered by `StrengthReport.entropy` below.  `strength` holds
the literal rating string; `color`/`reset` hold the ANSI escapes. -/
structure StrengthReport where
  score : Nat
  max_score : Nat
  percentage : ℚ
  strength : String
  color : String
  reset : String
  feedback : List Feedback
  passwordLength : Nat
  charSetSize : Nat
deriving DecidableEq, Repr

/-- Body of `evaluate_password_strength` after the scans of the password:
every branch of the Python function depends on the password only through
its length `n` and the four class-presence booleans `bl, bu, bd, bs`. -/
def evaluateAux (n : Nat) (bl bu bd bs : Bool) : StrengthReport :=
  let ls := lengthScoreFeedback n
  let ds := diversityScoreFeedback bl bu bd bs
  let size := char_set_size bl bu bd bs
  let es := entropyScoreFeedback n size
  let score := ls.1 + ds.1 + es.1
  let percentage : ℚ := (score : ℚ) / 14 * 100
  { score := score
    max_score := 14
    percentage := percentage
    strength :=
      if 90 ≤ percentage then "Excellent"
      else if 70 ≤ percentage then "Strong"
      else if 50 ≤ percentage then "Moderate"
      else if 30 ≤ percentage then "Weak"
      else "Very Weak"
    color :=
      if 90 ≤ percentage then "\x1B[92m"
      else if 70 ≤ percentage then "\x1B[92m"
      else if 50 ≤ percentage then "\x1B[93m"
      else if 30 ≤ percentage then "\x1B[91m"
      else "\x1B[91m"
    reset := "\x1B[0m"
    feedback := ls.2 ++ ds.2 ++ es.2
    passwordLength := n
    charSetSize := size }

/-- Function `evaluate_password_strength(password)` (lines 70-180). -/
def evaluate_password_strength (password : String) : StrengthReport :=
  evaluateAux password.length (hasLower password.data) (hasUpper password.data)
    (hasDigit password.data) (hasSymbol password.data)

/-- The real entropy value recorded in a report. -/
noncomputable def StrengthReport.entropy (r : StrengthReport) : ℝ :=
  entropyBits r.passwordLength r.charSetSize

/-! ## Generator (`generate_password`, lines 20-68) -/

/-- The cryptographically secure random source.  `choice k l` is the
`k`-th call to `secrets.choice(l)` in one generation run (each call in
`generate_password` uses a distinct index, so any sequence of draws of
a real execution is represented); `shuffle` is
`secrets.SystemRandom().shuffle`. -/
structure SecureRandom where
  choice : Nat → List Char → Char
  shuffle : List Char → List Char

/-- What the Python library guarantees of the source: each choice from
a non-empty list is an element of that list, and the shuffle returns a
permutation of its input. -/
def SecureRandom.Valid (r : SecureRandom) : Prop :=
  (∀ k : Nat, ∀ l : List Char, l ≠ [] → r.choice k l ∈ l) ∧
    (∀ l : List Char, List.Perm (r.shuffle l) l)

/-- Clamping `length = MIN_LENGTH if length < MIN_LENGTH else length`
(lines 31-33; the accompanying warning print is caller-visible I/O,
not part of the returned value). -/
def clampLength (length : Nat) : Nat :=
  if length < MIN_LENGTH then MIN_LENGTH else length

/-- Assembly `all_characters = lowercase + uppercase + digits + symbols`
(lines 36-42), where a class alphabet is the empty string when its
flag is off. -/
def allCharacters (use_uppercase use_numbers use_symbols : Bool) : List Char :=
  ascii_lowercase ++ (if use_uppercase then ascii_uppercase else []) ++
    (if use_numbers then digits else []) ++ (if use_symbols then punctuation else [])

/-- The mandatory-inclusion draws (lines 49-58): always one lowercase
character, then one from each enabled class, in source order. -/
def mandatoryChars (r : SecureRandom) (use_uppercase use_numbers use_symbols : Bool) :
    List Char :=
  [r.choice 0 ascii_lowercase] ++
    (if use_uppercase then [r.choice 1 ascii_uppercase] else []) ++
    (if use_numbers then [r.choice 2 digits] else []) ++
    (if use_symbols then [r.choice 3 punctuation] else [])

/-- Function `generate_password(length, use_uppercase, use_numbers, use_symbols)`
(lines 20-68).  The `ValueError` raised when `all_characters` is empty
becomes `Except.error`; fill draws use choice indices `4, 5, ...`. -/
def generate_password (r : SecureRandom) (length : Nat)
    (use_uppercase use_numbers use_symbols : Bool) : Except String String :=
  let length := clampLength length
  let all_characters := allCharacters use_uppercase use_numbers use_symbols
  if all_characters = [] then
    Except.error
      "At least one character set (lowercase, uppercase, digits, symbols) must be selected."
  else
    let password := mandatoryChars r use_uppercase use_numbers use_symbols
    let remaining_length := length - password.length
    let password :=
      password ++ (List.range remaining_length).map (fun i => r.choice (4 + i) all_characters)
    Except.ok (String.mk (r.shuffle password))

/-- A concrete valid source: every choice takes the head of the list,
the shuffle is the identity. -/
def headRandom : SecureRandom where
  choice := fun _ l => l.headD 'a'
  shuffle := fun l => l

/-! ## Helper lemmas -/

theorem headRandom_valid : headRandom.Valid := by
  constructor
  · intro k l hl
    cases l with
    | nil => exact absurd rfl hl
    | cons a t => simp [headRandom]
  · intro l
    exact List.Perm.refl l

theorem perm_any_eq {l₁ l₂ : List Char} (h : List.Perm l₁ l₂) (f : Char → Bool) :
    l₁.any f = l₂.any f := by
  apply Bool.eq_iff_iff.mpr
  simp only [List.any_eq_true]
  constructor
  · rintro ⟨x, hx, hf⟩
    exact ⟨x, h.mem_iff.mp hx, hf⟩
  · rintro ⟨x, hx, hf⟩
    exact ⟨x, h.mem_iff.mpr hx, hf⟩

theorem allCharacters_ne_nil (uu un us : Bool) : allCharacters uu un us ≠ [] := by
  unfold allCharacters
  intro hcontra
  rw [List.append_eq_nil, List.append_eq_nil, List.append_eq_nil] at hcontra
  exact absurd hcontra.1.1.1 (by decide)

theorem generate_password_eq (r : SecureRandom) (length : Nat) (uu un us : Bool) :
    generate_password r length uu un us =
      Except.ok (String.mk (r.shuffle (mandatoryChars r uu un us ++
        (List.range (clampLength length - (mandatoryChars r uu un us).length)).map
          (fun i => r.choice (4 + i) (allCharacters uu un us))))) := by
  unfold generate_password
  rw [if_neg (allCharacters_ne_nil uu un us)]

theorem mandatoryChars_length (r : SecureRandom) (uu un us : Bool) :
    (mandatoryChars r uu un us).length =
      1 + (if uu then 1 else 0) + (if un then 1 else 0) + (if us then 1 else 0) := by
  cases uu <;> cases un <;> cases us <;> simp [mandatoryChars]

theorem mandatoryChars_length_le (r : SecureRandom) (uu un us : Bool) :
    (mandatoryChars r uu un us).length ≤ 4 := by
  rw [mandatoryChars_length]
  split_ifs <;> omega

theorem clampLength_ge (length : Nat) : 8 ≤ clampLength length := by
  unfold clampLength MIN_LENGTH
  split <;> omega

theorem generate_password_length (r : SecureRandom) (hr : r.Valid) (length : Nat)
    (uu un us : Bool) :
    ∃ pw : String, generate_password r length uu un us = Except.ok pw ∧
      pw.length = clampLength length := by
  refine ⟨_, generate_password_eq r length uu un us, ?_⟩
  have hperm := hr.2 (mandatoryChars r uu un us ++
    (List.range (clampLength length - (mandatoryChars r uu un us).length)).map
      (fun i => r.choice (4 + i) (allCharacters uu un us)))
  have hlen := hperm.length_eq
  have hm := mandatoryChars_length_le r uu un us
  have hc := clampLength_ge length
  simp only [List.length_append, List.length_map, List.length_range] at hlen
  show (r.shuffle _).length = clampLength length
  omega

theorem entropyAtLeast_iff (len size t : Nat) (hs : 1 ≤ size) :
    entropyAtLeast len size t = true ↔ (t : ℝ) ≤ entropyBits len size := by
  unfold entropyAtLeast entropyBits
  rw [if_pos (show 0 < size from hs)]
  simp only [decide_eq_true_eq]
  have hs' : (0 : ℝ) < (size : ℝ) := by exact_mod_cast hs
  have hcast : 2 ^ t ≤ size ^ len ↔ ((2 : ℝ)) ^ t ≤ ((size : ℝ)) ^ len := by
    rw [← Nat.cast_le (α := ℝ)]
    push_cast
    exact Iff.rfl
  rw [hcast,
    ← Real.logb_le_logb (b := 2) one_lt_two (by positivity) (pow_pos hs' len),
    Real.logb_pow, Real.logb_pow, Real.logb_self_eq_one one_lt_two, mul_one]

theorem entropyPos_iff (len size : Nat) :
    entropyPos len size = true ↔ 0 < entropyBits len size := by
  unfold entropyPos entropyBits
  simp only [decide_eq_true_eq]
  rcases Nat.eq_zero_or_pos size with hz | hpos
  · subst hz
    simp
  · rw [if_pos hpos]
    constructor
    · rintro ⟨h1, h2⟩
      exact mul_pos (by exact_mod_cast h1)
        (Real.logb_pos one_lt_two (by exact_mod_cast h2))
    · intro h
      refine ⟨?_, ?_⟩
      · rcases Nat.eq_zero_or_pos len with h0 | h0
        · subst h0
          simp at h
        · exact h0
      · by_contra hlt
        push_neg at hlt
        interval_cases size
        · simp at h

theorem lengthScoreFeedback_le (n : Nat) : (lengthScoreFeedback n).1 ≤ 5 := by
  unfold lengthScoreFeedback
  split_ifs <;> simp

theorem diversityScoreFeedback_le (bl bu bd bs : Bool) :
    (diversityScoreFeedback bl bu bd bs).1 ≤ 4 := by
  unfold diversityScoreFeedback
  dsimp only
  split_ifs <;> omega

theorem entropyScoreFeedback_le (len size : Nat) : (entropyScoreFeedback len size).1 ≤ 5 := by
  unfold entropyScoreFeedback
  split_ifs <;> simp

theorem lengthScoreFeedback_pos {n : Nat} (h : 8 ≤ n) : 1 ≤ (lengthScoreFeedback n).1 := by
  unfold lengthScoreFeedback
  split_ifs <;> omega

theorem entropyScoreFeedback_size_zero (len : Nat) : entropyScoreFeedback len 0 = (0, []) := by
  unfold entropyScoreFeedback entropyAtLeast entropyPos
  cases len with
  | zero => decide
  | succ n => simp [Nat.zero_pow]

theorem hasAny_eq_false {p alphabet : List Char} (h : ∀ c ∈ p, c ∉ alphabet) :
    (p.any fun c => alphabet.contains c) = false := by
  rw [List.any_eq_false]
  intro c hc
  simpa using h c hc

theorem any_filter_eq (p : List Char) (f g : Char → Bool)
    (h : ∀ c, f c = true → g c = true) : (p.filter g).any f = p.any f := by
  induction p with
  | nil => rfl
  | cons a t ih =>
    by_cases ha : g a = true
    · simp [List.filter_cons, ha, ih]
    · have hfa : f a = false := by
        cases hfa : f a
        · rfl
        · exact absurd (h a hfa) ha
      simp [List.filter_cons, ha, ih, hfa]

theorem hasLower_filter_classified (p : List Char) :
    hasLower (p.filter classified) = hasLower p :=
  any_filter_eq p _ classified (fun c h => by
    simp at h
    simp [classified, h])

theorem hasUpper_filter_classified (p : List Char) :
    hasUpper (p.filter classified) = hasUpper p :=
  any_filter_eq p _ classified (fun c h => by
    simp at h
    simp [classified, h])

theorem hasDigit_filter_classified (p : List Char) :
    hasDigit (p.filter classified) = hasDigit p :=
  any_filter_eq p _ classified (fun c h => by
    simp at h
    simp [classified, h])

theorem hasSymbol_filter_classified (p : List Char) :
    hasSymbol (p.filter classified) = hasSymbol p :=
  any_filter_eq p _ classified (fun c h => by
    simp at h
    simp [classified, h])

theorem not_mem_of_not_classified {c : Char} (h : classified c = false) :
    c ∉ ascii_lowercase ∧ c ∉ ascii_uppercase ∧ c ∉ digits ∧ c ∉ punctuation := by
  simp only [classified, Bool.or_eq_false_iff] at h
  obtain ⟨⟨⟨h1, h2⟩, h3⟩, h4⟩ := h
  exact ⟨by simpa using h1, by simpa using h2, by simpa using h3, by simpa using h4⟩

/-! ## Claim theorems -/

/-- C2: for every password string, `evaluate_password_strength` computes the
entropy as `length(password) * log2(activeAlphabetSize)`, where the active
alphabet size is 26 if any lowercase letter is present, plus 26 for any
uppercase letter, plus 10 for any digit, plus the size of the punctuation
set (32) for any symbol; and the entropy is 0 when the size is 0. -/
theorem evaluate_entropy_formula (p : String) :
    (evaluate_password_strength p).entropy =
      (if 0 < (evaluate_password_strength p).charSetSize then
          ((evaluate_password_strength p).passwordLength : ℝ) *
            Real.logb 2 ((evaluate_password_strength p).charSetSize)
        else 0) ∧
    (evaluate_password_strength p).charSetSize =
      (if hasLower p.data then 26 else 0) + (if hasUpper p.data then 26 else 0) +
        (if hasDigit p.data then 10 else 0) +
        (if hasSymbol p.data then punctuation.length else 0) ∧
    (evaluate_password_strength p).passwordLength = p.length ∧
    punctuation.length = 32 :=
  ⟨rfl, rfl, rfl, rfl⟩

/-- C3: for every password string, the report satisfies
`percentage = score / 14 * 100`, and the rating is Excellent when the
percentage is at least 90, Strong at least 70, Moderate at least 50,
Weak at least 30, and Very Weak otherwise. -/
theorem evaluate_percentage_rating (p : String) :
    (evaluate_password_strength p).percentage =
      ((evaluate_password_strength p).score : ℚ) / 14 * 100 ∧
    (evaluate_password_strength p).strength =
      (if 90 ≤ (evaluate_password_strength p).percentage then "Excellent"
       else if 70 ≤ (evaluate_password_strength p).percentage then "Strong"
       else if 50 ≤ (evaluate_password_strength p).percentage then "Moderate"
       else if 30 ≤ (evaluate_password_strength p).percentage then "Weak"
       else "Very Weak") :=
  ⟨rfl, rfl⟩

/-- C6: evaluation never fails — every string yields a well-formed report
(score bounded by the constant maximum 14), and the empty password yields
score 0, entropy 0 and rating Very Weak. -/
theorem evaluate_total_and_empty :
    (∀ p : String, (evaluate_password_strength p).score ≤ 14 ∧
        (evaluate_password_strength p).max_score = 14) ∧
    (evaluate_password_strength "").score = 0 ∧
    (evaluate_password_strength "").entropy = 0 ∧
    (evaluate_password_strength "").strength = "Very Weak" := by
  refine ⟨fun p => ⟨?_, rfl⟩, rfl, ?_, ?_⟩
  · have h1 := lengthScoreFeedback_le p.length
    have h2 := diversityScoreFeedback_le (hasLower p.data) (hasUpper p.data)
      (hasDigit p.data) (hasSymbol p.data)
    have h3 := entropyScoreFeedback_le p.length (char_set_size (hasLower p.data)
      (hasUpper p.data) (hasDigit p.data) (hasSymbol p.data))
    show (lengthScoreFeedback p.length).1 +
      (diversityScoreFeedback (hasLower p.data) (hasUpper p.data) (hasDigit p.data)
        (hasSymbol p.data)).1 +
      (entropyScoreFeedback p.length (char_set_size (hasLower p.data) (hasUpper p.data)
        (hasDigit p.data) (hasSymbol p.data))).1 ≤ 14
    omega
  · show entropyBits (evaluate_password_strength "").passwordLength
      (evaluate_password_strength "").charSetSize = 0
    rw [show (evaluate_password_strength "").passwordLength = 0 from rfl,
      show (evaluate_password_strength "").charSetSize = 0 from rfl]
    simp [entropyBits]
  · have hscore : (evaluate_password_strength "").score = 0 := rfl
    show (if 90 ≤ ((evaluate_password_strength "").score : ℚ) / 14 * 100 then "Excellent"
      else if 70 ≤ ((evaluate_password_strength "").score : ℚ) / 14 * 100 then "Strong"
      else if 50 ≤ ((evaluate_password_strength "").score : ℚ) / 14 * 100 then "Moderate"
      else if 30 ≤ ((evaluate_password_strength "").score : ℚ) / 14 * 100 then "Weak"
      else "Very Weak") = "Very Weak"
    rw [hscore]
    norm_num

/-- C8: for every length and combination of class flags, `generate_password`
never takes the defensive empty-alphabet error branch: it always returns a
password, because the lowercase alphabet is always included. -/
theorem generate_never_invalid_configuration (r : SecureRandom) (length : Nat)
    (uu un us : Bool) :
    ∃ pw : String, generate_password r length uu un us = Except.ok pw :=
  ⟨_, generate_password_eq r length uu un us⟩

/-- C10: the number of fill-phase draws, the clamped length minus the number
of mandatory draws, is never negative: the mandatory phase draws at most 4
characters while the clamped length is at least 8, so the mandatory
characters are never truncated. -/
theorem mandatory_fits_in_clamped_length (r : SecureRandom) (length : Nat)
    (uu un us : Bool) :
    (mandatoryChars r uu un us).length ≤ 4 ∧ 8 ≤ clampLength length ∧
      (mandatoryChars r uu un us).length +
        (clampLength length - (mandatoryChars r uu un us).length) = clampLength length := by
  have h1 := mandatoryChars_length_le r uu un us
  have h2 := clampLength_ge length
  exact ⟨h1, by omega, by omega⟩

/-- C7: evaluating eight lowercase letters gives length score 1, diversity
score 1, entropy exactly `8 * log2 26` (below the 40-bit threshold), entropy
score 1, and total score 3. -/
theorem evaluate_eight_lowercase :
    (lengthScoreFeedback (String.length "aaaaaaaa")).1 = 1 ∧
    (diversityScoreFeedback (hasLower (String.data "aaaaaaaa"))
        (hasUpper (String.data "aaaaaaaa")) (hasDigit (String.data "aaaaaaaa"))
        (hasSymbol (String.data "aaaaaaaa"))).1 = 1 ∧
    (evaluate_password_strength "aaaaaaaa").entropy = 8 * Real.logb 2 26 ∧
    8 * Real.logb 2 26 < 40 ∧
    (entropyScoreFeedback (String.length "aaaaaaaa")
        (char_set_size (hasLower (String.data "aaaaaaaa"))
          (hasUpper (String.data "aaaaaaaa")) (hasDigit (String.data "aaaaaaaa"))
          (hasSymbol (String.data "aaaaaaaa")))).1 = 1 ∧
    (evaluate_password_strength "aaaaaaaa").score = 3 := by
  refine ⟨by decide, by decide, ?_, ?_, by decide, by decide⟩
  · show entropyBits (evaluate_password_strength "aaaaaaaa").passwordLength
      (evaluate_password_strength "aaaaaaaa").charSetSize = 8 * Real.logb 2 26
    rw [show (evaluate_password_strength "aaaaaaaa").passwordLength = 8 from rfl,
      show (evaluate_password_strength "aaaaaaaa").charSetSize = 26 from rfl]
    unfold entropyBits
    norm_num
  · have h1 : Real.logb 2 26 < Real.logb 2 32 :=
      Real.logb_lt_logb one_lt_two (by norm_num) (by norm_num)
    have h2 : Real.logb 2 32 = 5 := by
      rw [show (32 : ℝ) = 2 ^ (5 : ℕ) by norm_num, Real.logb_pow,
        Real.logb_self_eq_one one_lt_two, mul_one]
      norm_num
    rw [h2] at h1
    linarith

/-- C9: for every password string, characters outside all four classes
count toward the password length used by the length score and by the
entropy length multiplier, but contribute nothing to the diversity score
or the active alphabet size: the score decomposes with the full character
count in both length-dependent components, while the diversity score,
alphabet size and entropy coincide with those of the password with all
unclassified characters removed; and a password of length at least 8 made
only of such characters has diversity score 0, entropy 0, and total score
equal to its length score alone (which is positive). -/
theorem unclassified_characters_length_only (p : String) :
    ((evaluate_password_strength p).passwordLength = p.data.length ∧
     (evaluate_password_strength p).score =
       (lengthScoreFeedback p.data.length).1 +
         (diversityScoreFeedback (hasLower (p.data.filter classified))
           (hasUpper (p.data.filter classified)) (hasDigit (p.data.filter classified))
           (hasSymbol (p.data.filter classified))).1 +
         (entropyScoreFeedback p.data.length
           (char_set_size (hasLower (p.data.filter classified))
             (hasUpper (p.data.filter classified)) (hasDigit (p.data.filter classified))
             (hasSymbol (p.data.filter classified)))).1 ∧
     (evaluate_password_strength p).charSetSize =
       char_set_size (hasLower (p.data.filter classified))
         (hasUpper (p.data.filter classified)) (hasDigit (p.data.filter classified))
         (hasSymbol (p.data.filter classified)) ∧
     (evaluate_password_strength p).entropy =
       entropyBits p.data.length
         (char_set_size (hasLower (p.data.filter classified))
           (hasUpper (p.data.filter classified)) (hasDigit (p.data.filter classified))
           (hasSymbol (p.data.filter classified)))) ∧
    ((∀ c ∈ p.data, classified c = false) → 8 ≤ p.length →
      (diversityScoreFeedback (hasLower p.data) (hasUpper p.data) (hasDigit p.data)
        (hasSymbol p.data)).1 = 0 ∧
      char_set_size (hasLower p.data) (hasUpper p.data) (hasDigit p.data)
        (hasSymbol p.data) = 0 ∧
      (evaluate_password_strength p).entropy = 0 ∧
      (evaluate_password_strength p).score = (lengthScoreFeedback p.length).1 ∧
      1 ≤ (lengthScoreFeedback p.length).1) := by
  constructor
  · rw [hasLower_filter_classified, hasUpper_filter_classified,
      hasDigit_filter_classified, hasSymbol_filter_classified]
    exact ⟨rfl, rfl, rfl, rfl⟩
  · intro hc h8
    have hl : hasLower p.data = false :=
      hasAny_eq_false (fun c hm => (not_mem_of_not_classified (hc c hm)).1)
    have hu : hasUpper p.data = false :=
      hasAny_eq_false (fun c hm => (not_mem_of_not_classified (hc c hm)).2.1)
    have hd : hasDigit p.data = false :=
      hasAny_eq_false (fun c hm => (not_mem_of_not_classified (hc c hm)).2.2.1)
    have hy : hasSymbol p.data = false :=
      hasAny_eq_false (fun c hm => (not_mem_of_not_classified (hc c hm)).2.2.2)
    have hdiv : (diversityScoreFeedback (hasLower p.data) (hasUpper p.data)
        (hasDigit p.data) (hasSymbol p.data)).1 = 0 := by
      unfold diversityScoreFeedback
      simp [hl, hu, hd, hy]
    have hsize : char_set_size (hasLower p.data) (hasUpper p.data) (hasDigit p.data)
        (hasSymbol p.data) = 0 := by
      unfold char_set_size
      simp [hl, hu, hd, hy]
    refine ⟨hdiv, hsize, ?_, ?_, lengthScoreFeedback_pos h8⟩
    · show entropyBits p.length (char_set_size (hasLower p.data) (hasUpper p.data)
        (hasDigit p.data) (hasSymbol p.data)) = 0
      rw [hsize]
      simp [entropyBits]
    · show (lengthScoreFeedback p.length).1 +
        (diversityScoreFeedback (hasLower p.data) (hasUpper p.data) (hasDigit p.data)
          (hasSymbol p.data)).1 +
        (entropyScoreFeedback p.length (char_set_size (hasLower p.data) (hasUpper p.data)
          (hasDigit p.data) (hasSymbol p.data))).1 = (lengthScoreFeedback p.length).1
      rw [hdiv, hsize, entropyScoreFeedback_size_zero]
      simp

theorem unclassified_characters_length_only_witness :
    (diversityScoreFeedback (hasLower (String.data "        "))
      (hasUpper (String.data "        ")) (hasDigit (String.data "        "))
      (hasSymbol (String.data "        "))).1 = 0 ∧
    char_set_size (hasLower (String.data "        ")) (hasUpper (String.data "        "))
      (hasDigit (String.data "        ")) (hasSymbol (String.data "        ")) = 0 ∧
    (evaluate_password_strength "        ").entropy = 0 ∧
    (evaluate_password_strength "        ").score =
      (lengthScoreFeedback (String.length "        ")).1 ∧
    1 ≤ (lengthScoreFeedback (String.length "        ")).1 :=
  (unclassified_characters_length_only "        ").2 (by decide) (by decide)

/-- C4: evaluation is invariant under permutation of the password's
characters — any rearrangement yields an identical report (same score,
percentage, rating, entropy, and feedback sequence). -/
theorem evaluate_perm_invariant (s t : String) (h : List.Perm s.data t.data) :
    evaluate_password_strength s = evaluate_password_strength t ∧
      (evaluate_password_strength s).entropy = (evaluate_password_strength t).entropy := by
  have hlen : s.length = t.length := by
    show s.data.length = t.data.length
    exact h.length_eq
  have hl : hasLower s.data = hasLower t.data := perm_any_eq h _
  have hu : hasUpper s.data = hasUpper t.data := perm_any_eq h _
  have hd : hasDigit s.data = hasDigit t.data := perm_any_eq h _
  have hy : hasSymbol s.data = hasSymbol t.data := perm_any_eq h _
  have hmain : evaluate_password_strength s = evaluate_password_strength t := by
    show evaluateAux s.length (hasLower s.data) (hasUpper s.data) (hasDigit s.data)
        (hasSymbol s.data) =
      evaluateAux t.length (hasLower t.data) (hasUpper t.data) (hasDigit t.data)
        (hasSymbol t.data)
    rw [hlen, hl, hu, hd, hy]
  exact ⟨hmain, by rw [hmain]⟩

theorem evaluate_perm_invariant_witness :
    evaluate_password_strength "ab" = evaluate_password_strength "ba" ∧
      (evaluate_password_strength "ab").entropy =
        (evaluate_password_strength "ba").entropy :=
  evaluate_perm_invariant "ab" "ba" (List.Perm.swap 'b' 'a' [])

/-- C1: for every requested length of at least 8 and any combination of the
three class flags, generation succeeds with a password of exactly the
requested length that contains at least one lowercase letter, and at least
one character from each enabled class. -/
theorem generate_length_and_classes (r : SecureRandom) (hr : r.Valid) (length : Nat)
    (h8 : 8 ≤ length) (uu un us : Bool) :
    ∃ pw : String, generate_password r length uu un us = Except.ok pw ∧
      pw.length = length ∧
      (∃ c ∈ pw.data, c ∈ ascii_lowercase) ∧
      (uu = true → ∃ c ∈ pw.data, c ∈ ascii_uppercase) ∧
      (un = true → ∃ c ∈ pw.data, c ∈ digits) ∧
      (us = true → ∃ c ∈ pw.data, c ∈ punctuation) := by
  obtain ⟨hchoice, hshuffle⟩ := hr
  have hclamp : clampLength length = length := by
    unfold clampLength MIN_LENGTH
    split <;> omega
  have hm := mandatoryChars_length_le r uu un us
  refine ⟨_, generate_password_eq r length uu un us, ?_, ?_, ?_, ?_, ?_⟩
  · have hlen := (hshuffle (mandatoryChars r uu un us ++
      (List.range (clampLength length - (mandatoryChars r uu un us).length)).map
        (fun i => r.choice (4 + i) (allCharacters uu un us)))).length_eq
    simp only [List.length_append, List.length_map, List.length_range] at hlen
    show (r.shuffle _).length = length
    rw [hlen, hclamp]
    omega
  · refine ⟨r.choice 0 ascii_lowercase, ?_, hchoice 0 ascii_lowercase (by decide)⟩
    show r.choice 0 ascii_lowercase ∈ r.shuffle _
    rw [List.Perm.mem_iff (hshuffle _)]
    apply List.mem_append_left
    simp [mandatoryChars]
  · intro huu
    refine ⟨r.choice 1 ascii_uppercase, ?_, hchoice 1 ascii_uppercase (by decide)⟩
    show r.choice 1 ascii_uppercase ∈ r.shuffle _
    rw [List.Perm.mem_iff (hshuffle _)]
    apply List.mem_append_left
    simp [mandatoryChars, huu]
  · intro hun
    refine ⟨r.choice 2 digits, ?_, hchoice 2 digits (by decide)⟩
    show r.choice 2 digits ∈ r.shuffle _
    rw [List.Perm.mem_iff (hshuffle _)]
    apply List.mem_append_left
    simp [mandatoryChars, hun]
  · intro hus
    refine ⟨r.choice 3 punctuation, ?_, hchoice 3 punctuation (by decide)⟩
    show r.choice 3 punctuation ∈ r.shuffle _
    rw [List.Perm.mem_iff (hshuffle _)]
    apply List.mem_append_left
    simp [mandatoryChars, hus]

theorem generate_length_and_classes_witness :
    ∃ pw : String, generate_password headRandom 8 true true true = Except.ok pw ∧
      pw.length = 8 ∧
      (∃ c ∈ pw.data, c ∈ ascii_lowercase) ∧
      (true = true → ∃ c ∈ pw.data, c ∈ ascii_uppercase) ∧
      (true = true → ∃ c ∈ pw.data, c ∈ digits) ∧
      (true = true → ∃ c ∈ pw.data, c ∈ punctuation) :=
  generate_length_and_classes headRandom headRandom_valid 8 (by norm_num) true true true

/-- C5: for every requested length below 8, generation succeeds (the short
length is corrected, not rejected) and the returned password has length
exactly 8 — not the requested length. -/
theorem generate_clamps_short_length (r : SecureRandom) (hr : r.Valid) (length : Nat)
    (hlt : length < 8) (uu un us : Bool) :
    ∃ pw : String, generate_password r length uu un us = Except.ok pw ∧
      pw.length = 8 ∧ pw.length ≠ length := by
  obtain ⟨pw, hpw, hlen⟩ := generate_password_length r hr length uu un us
  have hclamp : clampLength length = 8 := by
    unfold clampLength MIN_LENGTH
    split <;> omega
  rw [hclamp] at hlen
  exact ⟨pw, hpw, hlen, by omega⟩

theorem generate_clamps_short_length_witness :
    ∃ pw : String, generate_password headRandom 3 true true true = Except.ok pw ∧
      pw.length = 8 ∧ pw.length ≠ 3 :=
  generate_clamps_short_length headRandom headRandom_valid 3 (by norm_num) true true true

end PasswordGenerator
